import Mathlib

/-!
Shallow embedding of a simulated Two-Phase-Commit system (coordinator,
participant, client) written in Rust, together with proofs about its
vote aggregation, decision logging, counter invariants and registration
guards.

Modelling conventions:
* Each polling loop of the source is embedded as a function over an explicit
  script of observations: the value the shutdown flag had when it was read,
  whether the deadline had elapsed when it was checked, and what each
  non-blocking receive returned.  Exhausting a script models the point at
  which the deadline fires (every real run of such a loop eventually times
  out), so both exits compute the same timeout result.
* `u64` and `usize` counters are embedded as `Nat` with an explicit
  `% 2 ^ 64` on every increment (release-mode wrapping); the client's `u32`
  request counter uses `% 2 ^ 32`.
* Channel endpoints are opaque handles in the source; the coordinator's peer
  maps are embedded as their key lists in insertion order.
-/

namespace TwoPC

/-- MessageType from message.rs.  Modelled from the spec: message.rs is not
under src/; the spec fixes this closed set of nine variants. -/
inductive MessageType where
  | ClientRequest
  | CoordinatorPropose
  | ParticipantVoteCommit
  | ParticipantVoteAbort
  | CoordinatorCommit
  | CoordinatorAbort
  | ClientResultCommit
  | ClientResultAbort
  | CoordinatorExit
  deriving DecidableEq, Repr

/-- ProtocolMessage from message.rs.  Modelled from the spec: message.rs is
not under src/; the spec gives the fields mtype, txid, senderid, opid. -/
structure ProtocolMessage where
  mtype : MessageType
  txid : String
  senderid : String
  opid : Nat
  deriving DecidableEq, Repr

/-- ProtocolMessage::generate.  Modelled from the spec: constructs a message
from its four fields (message.rs is not under src/). -/
def ProtocolMessage.generate (mtype : MessageType) (txid : String)
    (senderid : String) (opid : Nat) : ProtocolMessage :=
  { mtype := mtype, txid := txid, senderid := senderid, opid := opid }

/-- Result of a non-blocking receive on an ipc channel: Ok(msg),
Err(TryRecvError::Empty) or Err(TryRecvError::IpcError(_)). -/
inductive RecvResult where
  | ok (m : ProtocolMessage)
  | empty
  | ipcError
  deriving DecidableEq, Repr

/-- Wrapping increment of a u64 (or 64-bit usize) counter, as in release-mode
Rust `x += 1`. -/
def inc64 (x : Nat) : Nat := (x + 1) % 2 ^ 64

/-- Wrapping increment of a u32 counter, as in release-mode Rust `x + 1`. -/
def inc32 (x : Nat) : Nat := (x + 1) % 2 ^ 32

/-- CoordinatorState (coordinator.rs lines 27-34). -/
inductive CoordinatorState where
  | Quiescent
  | ReceivedRequest
  | ProposalSent
  | ReceivedVotesAbort
  | ReceivedVotesCommit
  | SentGlobalDecision
  deriving DecidableEq, Repr

/-- Coordinator struct (coordinator.rs lines 38-47).  The oplog is the list
of appended messages (sequence numbers are positions); the peer maps are
their key lists; the running flag and channel handles live in the scripts. -/
structure Coordinator where
  state : CoordinatorState
  log : List ProtocolMessage
  participant_map : List String
  client_map : List String
  successful_ops : Nat
  failed_ops : Nat
  unknown_ops : Nat
  deriving DecidableEq, Repr

/-- Coordinator::new (coordinator.rs lines 69-83): Quiescent state, fresh
empty log, empty maps, zero counters. -/
def Coordinator.new : Coordinator :=
  { state := CoordinatorState.Quiescent
    log := []
    participant_map := []
    client_map := []
    successful_ops := 0
    failed_ops := 0
    unknown_ops := 0 }

/-- Key-set effect of HashMap::insert: a fresh key is added, an existing key
keeps the key set unchanged. -/
def insertKey (m : List String) (k : String) : List String :=
  if k ∈ m then m else m ++ [k]

/-- Coordinator::participant_join (coordinator.rs lines 92-98): asserts the
Quiescent state, then inserts the participant.  `none` models the assertion
failure (panic), on which no insertion happens. -/
def participant_join (c : Coordinator) (name : String) : Option Coordinator :=
  if c.state = CoordinatorState.Quiescent then
    some { c with participant_map := insertKey c.participant_map name }
  else none

/-- Coordinator::client_join (coordinator.rs lines 107-113): asserts the
Quiescent state, then inserts the client. -/
def client_join (c : Coordinator) (name : String) : Option Coordinator :=
  if c.state = CoordinatorState.Quiescent then
    some { c with client_map := insertKey c.client_map name }
  else none

/-- Coordinator::report_status (coordinator.rs lines 120-122). -/
def report_status (c : Coordinator) : String :=
  "coordinator:\tC:" ++ Nat.repr c.successful_ops ++ "\tA:" ++
    Nat.repr c.failed_ops ++ "\tU:" ++ Nat.repr c.unknown_ops

/-- Request-pickup pass over the client map (coordinator.rs lines 142-156):
first Ok message of type ClientRequest wins; Empty and IpcError channels are
skipped; an Ok message of any other type is also passed over. -/
def poll_clients : List (String × RecvResult) → Option (String × ProtocolMessage)
  | [] => none
  | (name, RecvResult.ok m) :: rest =>
      if m.mtype = MessageType.ClientRequest then some (name, m)
      else poll_clients rest
  | (_, RecvResult.empty) :: rest => poll_clients rest
  | (_, RecvResult.ipcError) :: rest => poll_clients rest

/-- One pass of the vote-collection inner for-loop over the participant
endpoints (coordinator.rs lines 205-221).  Counts matching
ParticipantVoteCommit / ParticipantVoteAbort messages; `seen` accumulates
every Ok message examined; Empty and IpcError are skipped. -/
def poll_votes_once (txid : String) :
    Nat → Nat → List ProtocolMessage → List RecvResult →
      Nat × Nat × List ProtocolMessage
  | vc, va, seen, [] => (vc, va, seen)
  | vc, va, seen, RecvResult.ok m :: rest =>
      if m.txid = txid then
        if m.mtype = MessageType.ParticipantVoteCommit then
          poll_votes_once txid (inc64 vc) va (seen ++ [m]) rest
        else if m.mtype = MessageType.ParticipantVoteAbort then
          poll_votes_once txid vc (inc64 va) (seen ++ [m]) rest
        else poll_votes_once txid vc va (seen ++ [m]) rest
      else poll_votes_once txid vc va (seen ++ [m]) rest
  | vc, va, seen, RecvResult.empty :: rest => poll_votes_once txid vc va seen rest
  | vc, va, seen, RecvResult.ipcError :: rest => poll_votes_once txid vc va seen rest

/-- One outer iteration of the vote-collection while-loop: the deadline check
and the shutdown-flag read of that iteration, and what each non-blocking
receive returned in the inner pass. -/
structure VoteRound where
  timedOut : Bool
  running : Bool
  recvs : List RecvResult
  deriving Repr

/-- Vote-collection while-loop (coordinator.rs lines 189-224), guarded by
`votes_commit + votes_abort < num_participants`, broken by the 200 ms
deadline, a cleared shutdown flag, or a pending abort vote (early-abort
optimization).  Script exhaustion models the deadline firing. -/
def collect_votes (txid : String) (n : Nat) :
    Nat → Nat → List ProtocolMessage → List VoteRound →
      Nat × Nat × List ProtocolMessage
  | vc, va, seen, [] => (vc, va, seen)
  | vc, va, seen, r :: rest =>
      if vc + va < n then
        if r.timedOut then (vc, va, seen)
        else if r.running then
          if va > 0 then (vc, va, seen)
          else
            let res := poll_votes_once txid vc va seen r.recvs
            collect_votes txid n res.1 res.2.1 res.2.2 rest
        else (vc, va, seen)
      else (vc, va, seen)

/-- Actions the coordinator performs, in program order: appending a message
to its oplog, sending a message to a named participant, sending a message to
a named client. -/
inductive CoordAction where
  | logAppend (m : ProtocolMessage)
  | sendToParticipant (name : String) (m : ProtocolMessage)
  | sendToClient (name : String) (m : ProtocolMessage)
  deriving DecidableEq, Repr

/-- Vote counts and examined messages of one transaction: the vote-collection
loop run from zero counters with num_participants taken from the participant
map (coordinator.rs lines 183-224). -/
def tx_votes (c : Coordinator) (req : ProtocolMessage) (rounds : List VoteRound) :
    Nat × Nat × List ProtocolMessage :=
  collect_votes req.txid c.participant_map.length 0 0 [] rounds

/-- Decision rule (coordinator.rs line 227):
`votes_commit == num_participants && votes_abort == 0`. -/
def commit_decision (c : Coordinator) (req : ProtocolMessage)
    (rounds : List VoteRound) : Bool :=
  (tx_votes c req rounds).1 == c.participant_map.length &&
    (tx_votes c req rounds).2.1 == 0

/-- One accepted request handled end to end (coordinator.rs lines 163-268):
transition to ProposalSent, broadcast CoordinatorPropose, collect votes,
decide by `votes_commit == num_participants && votes_abort == 0`, bump the
matching counter and state, append the decision to the log, broadcast the
decision, send the ClientResult to the originating client (if still mapped),
and end in SentGlobalDecision.  Returns the new coordinator and its action
trace in program order. -/
def coord_transaction (c : Coordinator) (req : ProtocolMessage)
    (client_id : String) (rounds : List VoteRound) :
    Coordinator × List CoordAction :=
  let c1 : Coordinator := { c with state := CoordinatorState.ProposalSent }
  let propose_msg := ProtocolMessage.generate MessageType.CoordinatorPropose
    req.txid "coordinator" req.opid
  let proposeActs := c1.participant_map.map
    (fun nm => CoordAction.sendToParticipant nm propose_msg)
  let c2 : Coordinator :=
    if commit_decision c req rounds then
      { c1 with successful_ops := inc64 c1.successful_ops
                state := CoordinatorState.ReceivedVotesCommit }
    else
      { c1 with failed_ops := inc64 c1.failed_ops
                state := CoordinatorState.ReceivedVotesAbort }
  let decision_msg_type :=
    if commit_decision c req rounds then MessageType.CoordinatorCommit
    else MessageType.CoordinatorAbort
  let result_msg_type :=
    if commit_decision c req rounds then MessageType.ClientResultCommit
    else MessageType.ClientResultAbort
  let log_entry := ProtocolMessage.generate decision_msg_type req.txid
    "coordinator" req.opid
  let c3 : Coordinator := { c2 with log := c2.log ++ [log_entry] }
  let decision_msg := ProtocolMessage.generate decision_msg_type req.txid
    "coordinator" req.opid
  let decisionActs := c3.participant_map.map
    (fun nm => CoordAction.sendToParticipant nm decision_msg)
  let result_msg := ProtocolMessage.generate result_msg_type req.txid
    "coordinator" req.opid
  let resultActs :=
    if client_id ∈ c3.client_map then
      [CoordAction.sendToClient client_id result_msg]
    else []
  let c4 : Coordinator := { c3 with state := CoordinatorState.SentGlobalDecision }
  (c4, proposeActs ++ CoordAction.logAppend log_entry :: (decisionActs ++ resultActs))

/-- One iteration of the coordinator's main loop: the shutdown flag read at
the top, what each client receive returned in the pickup pass, and the
vote-collection script used if a request is accepted. -/
structure CoordIter where
  running : Bool
  clientRecvs : List RecvResult
  voteRounds : List VoteRound
  deriving Repr

/-- Body of one main-loop iteration after the flag check (coordinator.rs
lines 137-268): pick up a request; with none found, sleep and leave the
coordinator untouched; otherwise handle the transaction. -/
def coord_step (c : Coordinator) (it : CoordIter) : Coordinator × List CoordAction :=
  match poll_clients (c.client_map.zip it.clientRecvs) with
  | none => (c, [])
  | some (client_id, req) => coord_transaction c req client_id it.voteRounds

/-- Coordinator main loop (coordinator.rs lines 132-269), iterated over a
script and exited when the shutdown flag reads false. -/
def coord_run_loop : Coordinator → List CoordIter → Coordinator × List CoordAction
  | c, [] => (c, [])
  | c, it :: its =>
      if it.running then
        let res := coord_step c it
        let res2 := coord_run_loop res.1 its
        (res2.1, res.2 ++ res2.2)
      else (c, [])

/-- Exit dissemination after the main loop (coordinator.rs lines 272-292):
one CoordinatorExit message, with txid "exit" and opid 0, to every client and
then to every participant. -/
def coord_exit_phase (c : Coordinator) : List CoordAction :=
  let exit_msg := ProtocolMessage.generate MessageType.CoordinatorExit "exit"
    "coordinator" 0
  c.client_map.map (fun nm => CoordAction.sendToClient nm exit_msg) ++
    c.participant_map.map (fun nm => CoordAction.sendToParticipant nm exit_msg)

/-- Coordinator::protocol (coordinator.rs lines 130-298): the main loop, the
exit broadcast, then report_status (which changes no state). -/
def Coordinator.protocol (c : Coordinator) (its : List CoordIter) :
    Coordinator × List CoordAction :=
  let res := coord_run_loop c its
  (res.1, res.2 ++ coord_exit_phase res.1)

/-- Number of messages of type `t` for transaction `txid` in a list. -/
def countVotes (msgs : List ProtocolMessage) (txid : String) (t : MessageType) : Nat :=
  msgs.countP (fun m => m.txid == txid && m.mtype == t)

/-- Number of log entries of message type `t`. -/
def countLog (l : List ProtocolMessage) (t : MessageType) : Nat :=
  l.countP (fun m => m.mtype == t)

/-- Classifies an action as the send of a global decision: a participant send
of CoordinatorCommit/CoordinatorAbort, or a client send of the matching
ClientResultCommit/ClientResultAbort, tagged with the decision it carries. -/
def decision_send_of : CoordAction → Option MessageType
  | CoordAction.logAppend _ => none
  | CoordAction.sendToParticipant _ m =>
      if m.mtype = MessageType.CoordinatorCommit then some MessageType.CoordinatorCommit
      else if m.mtype = MessageType.CoordinatorAbort then some MessageType.CoordinatorAbort
      else none
  | CoordAction.sendToClient _ m =>
      if m.mtype = MessageType.ClientResultCommit then some MessageType.CoordinatorCommit
      else if m.mtype = MessageType.ClientResultAbort then some MessageType.CoordinatorAbort
      else none

/-- Counter/log agreement invariant of the coordinator: successful_ops and
failed_ops are the (u64-wrapped) counts of CoordinatorCommit and
CoordinatorAbort entries in its oplog. -/
def counter_log_agree (c : Coordinator) : Prop :=
  c.successful_ops = countLog c.log MessageType.CoordinatorCommit % 2 ^ 64 ∧
    c.failed_ops = countLog c.log MessageType.CoordinatorAbort % 2 ^ 64

/-- Client struct (client.rs lines 22-31); channels and the running flag live
in the scripts. -/
structure Client where
  id_str : String
  num_requests : Nat
  successful_ops : Nat
  failed_ops : Nat
  unknown_ops : Nat
  deriving DecidableEq, Repr

/-- Client::new (client.rs lines 54-68). -/
def Client.new (id : String) : Client :=
  { id_str := id, num_requests := 0, successful_ops := 0, failed_ops := 0,
    unknown_ops := 0 }

/-- Client::send_next_operation (client.rs lines 104-118): bump the u32
request counter to k, build the ClientRequest with txid "<id>_op_<k>" and
opid k, and send it (a send failure is swallowed, so it has no state
effect).  Returns the new client and the message built. -/
def send_next_operation (c : Client) : Client × ProtocolMessage :=
  let k := inc32 c.num_requests
  let txid := c.id_str ++ "_op_" ++ Nat.repr k
  let pm := ProtocolMessage.generate MessageType.ClientRequest txid c.id_str k
  ({ c with num_requests := k }, pm)

/-- One iteration of the client's result-wait loop: the deadline check and
flag read at the top, and what the non-blocking receive returned. -/
structure ClientRound where
  timedOut : Bool
  running : Bool
  recv : RecvResult
  deriving Repr

/-- Client::recv_result (client.rs lines 126-170): waits up to 2000 ms for
the result of the last request.  Exactly one counter is bumped: successful on
ClientResultCommit, failed on ClientResultAbort, unknown on CoordinatorExit,
channel error, cleared shutdown flag, or deadline expiry (script exhaustion
models the deadline firing).  Ok messages of other types are passed over. -/
def recv_result (c : Client) : List ClientRound → Client
  | [] => { c with unknown_ops := inc64 c.unknown_ops }
  | r :: rest =>
      if r.timedOut then { c with unknown_ops := inc64 c.unknown_ops }
      else if r.running then
        match r.recv with
        | RecvResult.ok m =>
            if m.mtype = MessageType.ClientResultCommit then
              { c with successful_ops := inc64 c.successful_ops }
            else if m.mtype = MessageType.ClientResultAbort then
              { c with failed_ops := inc64 c.failed_ops }
            else if m.mtype = MessageType.CoordinatorExit then
              { c with unknown_ops := inc64 c.unknown_ops }
            else recv_result c rest
        | RecvResult.empty => recv_result c rest
        | RecvResult.ipcError => { c with unknown_ops := inc64 c.unknown_ops }
      else { c with unknown_ops := inc64 c.unknown_ops }

/-- One iteration of the client's request loop: the shutdown-flag read at the
top and the result-wait script of that request. -/
structure ClientIter where
  running : Bool
  rounds : List ClientRound
  deriving Repr

/-- Default iteration used when a script ends early: flag still set, channel
silent until the result-wait deadline. -/
def defaultClientIter : ClientIter := { running := true, rounds := [] }

/-- Request loop of Client::protocol (client.rs lines 190-197): n_requests
iterations, each first reading the shutdown flag (break when cleared), then
send_next_operation and recv_result. -/
def client_loop : Client → Nat → List ClientIter → Client
  | c, 0, _ => c
  | c, Nat.succ n, its =>
      let it := its.headD defaultClientIter
      if it.running then
        client_loop (recv_result (send_next_operation c).1 it.rounds) n its.tail
      else c

/-- Client::protocol (client.rs lines 188-201): the request loop, then
wait_for_exit_signal and report_status, which change no counters. -/
def Client.protocol (c : Client) (n_requests : Nat) (its : List ClientIter) : Client :=
  client_loop c n_requests its

/-- Client after its first k calls of send_next_operation. -/
def client_after (c : Client) : Nat → Client
  | 0 => c
  | Nat.succ k => (send_next_operation (client_after c k)).1

/-- Message constructed by the k-th call (1-indexed) of send_next_operation
on a fresh client with identifier id. -/
def nth_request (id : String) (k : Nat) : ProtocolMessage :=
  (send_next_operation (client_after (Client.new id) (k - 1))).2

/-- ParticipantState (participant.rs lines 29-35). -/
inductive ParticipantState where
  | Quiescent
  | ReceivedP1
  | VotedAbort
  | VotedCommit
  | AwaitingGlobalDecision
  deriving DecidableEq, Repr

/-- Participant struct (participant.rs lines 41-53); probability knobs,
channels and the running flag live outside the embedded state. -/
structure Participant where
  id_str : String
  state : ParticipantState
  log : List ProtocolMessage
  successful_ops : Nat
  failed_ops : Nat
  unknown_ops : Nat
  deriving DecidableEq, Repr

/-- Fresh participant as built by Participant::new (participant.rs
lines 77-99). -/
def Participant.new (id : String) : Participant :=
  { id_str := id, state := ParticipantState.Quiescent, log := [],
    successful_ops := 0, failed_ops := 0, unknown_ops := 0 }

/-- Decision core of Participant::perform_operation (participant.rs
lines 131-142): given the uniform draw x in [0,1), the operation succeeds
iff x <= operation_success_prob.  Draws and knobs are embedded as
rationals; on [0,1) the f64 comparison with the knob is exact for the
endpoint knob values this development evaluates. -/
def perform_operation (x prob : ℚ) : Bool :=
  if x ≤ prob then true else false

/-- One iteration of the participant's decision-wait loop: the while guard
`start_time.elapsed() < timeout`, the shutdown-flag read, and what the
non-blocking receive returned. -/
structure AwaitRound where
  timeLeft : Bool
  running : Bool
  recv : RecvResult
  deriving Repr

/-- Decision-wait while-loop (participant.rs lines 246-293) for in-flight
transaction txid/opid.  A received message is examined only if its txid
matches; then CoordinatorCommit bumps successful and logs, CoordinatorAbort
bumps failed and logs, CoordinatorExit bumps unknown — each ending the wait
with decision_received = true.  Any other Ok message is discarded and the
loop continues.  Deadline expiry (also script exhaustion), a cleared flag or
a channel error end the wait with decision_received = false. -/
def await_decision_loop (txid : String) (opid : Nat) (p : Participant) :
    List AwaitRound → Participant × Bool
  | [] => (p, false)
  | r :: rest =>
      if r.timeLeft then
        if r.running then
          match r.recv with
          | RecvResult.ok m =>
              if m.txid = txid then
                if m.mtype = MessageType.CoordinatorCommit then
                  ({ p with successful_ops := inc64 p.successful_ops
                            log := p.log ++ [ProtocolMessage.generate
                              MessageType.CoordinatorCommit txid p.id_str opid] },
                    true)
                else if m.mtype = MessageType.CoordinatorAbort then
                  ({ p with failed_ops := inc64 p.failed_ops
                            log := p.log ++ [ProtocolMessage.generate
                              MessageType.CoordinatorAbort txid p.id_str opid] },
                    true)
                else if m.mtype = MessageType.CoordinatorExit then
                  ({ p with unknown_ops := inc64 p.unknown_ops }, true)
                else await_decision_loop txid opid p rest
              else await_decision_loop txid opid p rest
          | RecvResult.empty => await_decision_loop txid opid p rest
          | RecvResult.ipcError => (p, false)
        else (p, false)
      else (p, false)

/-- Decision wait of the participant protocol (participant.rs lines 239-300):
enter AwaitingGlobalDecision, run the wait loop, bump unknown if no decision
was received, and return to Quiescent. -/
def await_global_decision (p : Participant) (txid : String) (opid : Nat)
    (rounds : List AwaitRound) : Participant :=
  let res := await_decision_loop txid opid
    { p with state := ParticipantState.AwaitingGlobalDecision } rounds
  let p1 := res.1
  let p2 := if res.2 then p1 else { p1 with unknown_ops := inc64 p1.unknown_ops }
  { p2 with state := ParticipantState.Quiescent }

/-- Concrete one-participant, one-client coordinator used by witnesses. -/
def sampleCoordinator : Coordinator :=
  { Coordinator.new with participant_map := ["participant_0"], client_map := ["client_0"] }

/-- Concrete client request used by witnesses. -/
def sampleRequest : ProtocolMessage :=
  ProtocolMessage.generate MessageType.ClientRequest "client_0_op_1" "client_0" 1

/-- Concrete vote-collection script used by witnesses: a single round in which
the only participant votes commit. -/
def sampleRounds : List VoteRound :=
  [{ timedOut := false, running := true,
     recvs := [RecvResult.ok (ProtocolMessage.generate
       MessageType.ParticipantVoteCommit "client_0_op_1" "participant_0" 1)] }]

theorem mem_insertKey (m : List String) (k : String) : k ∈ insertKey m k := by
  unfold insertKey
  split
  · assumption
  · simp

theorem coord_transaction_fst (c : Coordinator) (req : ProtocolMessage)
    (client_id : String) (rounds : List VoteRound) :
    (coord_transaction c req client_id rounds).1 =
      if commit_decision c req rounds then
        { c with state := CoordinatorState.SentGlobalDecision
                 log := c.log ++ [ProtocolMessage.generate
                   MessageType.CoordinatorCommit req.txid "coordinator" req.opid]
                 successful_ops := inc64 c.successful_ops }
      else
        { c with state := CoordinatorState.SentGlobalDecision
                 log := c.log ++ [ProtocolMessage.generate
                   MessageType.CoordinatorAbort req.txid "coordinator" req.opid]
                 failed_ops := inc64 c.failed_ops } := by
  by_cases h : commit_decision c req rounds <;>
    simp [coord_transaction, h]

theorem coord_transaction_snd (c : Coordinator) (req : ProtocolMessage)
    (client_id : String) (rounds : List VoteRound) :
    (coord_transaction c req client_id rounds).2 =
      c.participant_map.map (fun nm => CoordAction.sendToParticipant nm
        (ProtocolMessage.generate MessageType.CoordinatorPropose req.txid
          "coordinator" req.opid)) ++
      CoordAction.logAppend (ProtocolMessage.generate
        (if commit_decision c req rounds then MessageType.CoordinatorCommit
          else MessageType.CoordinatorAbort) req.txid "coordinator" req.opid) ::
      (c.participant_map.map (fun nm => CoordAction.sendToParticipant nm
        (ProtocolMessage.generate
          (if commit_decision c req rounds then MessageType.CoordinatorCommit
            else MessageType.CoordinatorAbort) req.txid "coordinator" req.opid)) ++
        (if client_id ∈ c.client_map then
          [CoordAction.sendToClient client_id (ProtocolMessage.generate
            (if commit_decision c req rounds then MessageType.ClientResultCommit
              else MessageType.ClientResultAbort) req.txid "coordinator" req.opid)]
        else [])) := by
  by_cases h : commit_decision c req rounds <;>
    simp [coord_transaction, h]

theorem coord_transaction_state (c : Coordinator) (req : ProtocolMessage)
    (client_id : String) (rounds : List VoteRound) :
    (coord_transaction c req client_id rounds).1.state =
      CoordinatorState.SentGlobalDecision := by
  rw [coord_transaction_fst]
  split <;> rfl

theorem coord_transaction_maps (c : Coordinator) (req : ProtocolMessage)
    (client_id : String) (rounds : List VoteRound) :
    (coord_transaction c req client_id rounds).1.participant_map = c.participant_map ∧
      (coord_transaction c req client_id rounds).1.client_map = c.client_map := by
  rw [coord_transaction_fst]
  split <;> exact ⟨rfl, rfl⟩

theorem coord_transaction_unknown (c : Coordinator) (req : ProtocolMessage)
    (client_id : String) (rounds : List VoteRound) :
    (coord_transaction c req client_id rounds).1.unknown_ops = c.unknown_ops := by
  rw [coord_transaction_fst]
  split <;> rfl

theorem coord_step_maps (c : Coordinator) (it : CoordIter) :
    (coord_step c it).1.participant_map = c.participant_map ∧
      (coord_step c it).1.client_map = c.client_map := by
  unfold coord_step
  cases h : poll_clients (c.client_map.zip it.clientRecvs) with
  | none => exact ⟨rfl, rfl⟩
  | some v => exact coord_transaction_maps c v.2 v.1 it.voteRounds

theorem coord_step_unknown (c : Coordinator) (it : CoordIter) :
    (coord_step c it).1.unknown_ops = c.unknown_ops := by
  unfold coord_step
  cases h : poll_clients (c.client_map.zip it.clientRecvs) with
  | none => rfl
  | some v => exact coord_transaction_unknown c v.2 v.1 it.voteRounds

theorem coord_run_loop_maps : ∀ (its : List CoordIter) (c : Coordinator),
    (coord_run_loop c its).1.participant_map = c.participant_map ∧
      (coord_run_loop c its).1.client_map = c.client_map := by
  intro its
  induction its with
  | nil => exact fun c => ⟨rfl, rfl⟩
  | cons it rest ih =>
      intro c
      unfold coord_run_loop
      by_cases h : it.running
      · simp only [h, if_true]
        refine ⟨?_, ?_⟩
        · rw [(ih (coord_step c it).1).1, (coord_step_maps c it).1]
        · rw [(ih (coord_step c it).1).2, (coord_step_maps c it).2]
      · simp only [h, if_false]
        exact ⟨rfl, rfl⟩

theorem coord_run_loop_unknown : ∀ (its : List CoordIter) (c : Coordinator),
    (coord_run_loop c its).1.unknown_ops = c.unknown_ops := by
  intro its
  induction its with
  | nil => exact fun c => rfl
  | cons it rest ih =>
      intro c
      unfold coord_run_loop
      by_cases h : it.running
      · simp only [h, if_true]
        rw [ih (coord_step c it).1, coord_step_unknown c it]
      · simp only [h, if_false]
        rfl

theorem protocol_fst (c : Coordinator) (its : List CoordIter) :
    (Coordinator.protocol c its).1 = (coord_run_loop c its).1 := rfl

/-- C5: participant_join and client_join insert the named peer exactly when
the coordinator is Quiescent; in any other state — in particular after a
transaction has been handled, which leaves the state SentGlobalDecision —
the assertion fails (modelled by `none`) and no insertion happens. -/
theorem joins_only_when_quiescent :
    (∀ c name, ((participant_join c name).isSome ↔
        c.state = CoordinatorState.Quiescent) ∧
      ((client_join c name).isSome ↔ c.state = CoordinatorState.Quiescent)) ∧
    (∀ c name, c.state = CoordinatorState.Quiescent →
      participant_join c name =
          some { c with participant_map := insertKey c.participant_map name } ∧
        client_join c name =
          some { c with client_map := insertKey c.client_map name } ∧
        name ∈ insertKey c.participant_map name ∧
        name ∈ insertKey c.client_map name) ∧
    (∀ c name, c.state ≠ CoordinatorState.Quiescent →
      participant_join c name = none ∧ client_join c name = none) ∧
    (∀ c req client_id rounds name,
      participant_join (coord_transaction c req client_id rounds).1 name = none ∧
        client_join (coord_transaction c req client_id rounds).1 name = none) := by
  have hns : CoordinatorState.SentGlobalDecision ≠ CoordinatorState.Quiescent := by
    decide
  refine ⟨?_, ?_, ?_, ?_⟩
  · intro c name
    constructor <;>
      [unfold participant_join; unfold client_join] <;>
      split <;> simp_all
  · intro c name h
    unfold participant_join client_join
    rw [if_pos h, if_pos h]
    exact ⟨rfl, rfl, mem_insertKey _ _, mem_insertKey _ _⟩
  · intro c name h
    unfold participant_join client_join
    rw [if_neg h, if_neg h]
    exact ⟨rfl, rfl⟩
  · intro c req client_id rounds name
    unfold participant_join client_join
    rw [coord_transaction_state]
    rw [if_neg hns, if_neg hns]
    exact ⟨rfl, rfl⟩

theorem joins_only_when_quiescent_witness :
    participant_join Coordinator.new "participant_0" =
        some { Coordinator.new with participant_map := ["participant_0"] } ∧
      participant_join { Coordinator.new with
        state := CoordinatorState.SentGlobalDecision } "participant_0" = none := by
  constructor
  · have h := (joins_only_when_quiescent.2.1 Coordinator.new "participant_0" rfl).1
    rw [h]
    rfl
  · exact (joins_only_when_quiescent.2.2.1
      { Coordinator.new with state := CoordinatorState.SentGlobalDecision }
      "participant_0" (by decide)).1

/-- C10: the coordinator never increments unknown_ops: it is 0 at
construction, protocol leaves it unchanged from any starting coordinator,
and the final status line of a run started with unknown_ops = 0 reports
U:0. -/
theorem coordinator_unknown_zero :
    Coordinator.new.unknown_ops = 0 ∧
    (∀ c its, (Coordinator.protocol c its).1.unknown_ops = c.unknown_ops) ∧
    (∀ c its, c.unknown_ops = 0 →
      report_status (Coordinator.protocol c its).1 =
        "coordinator:\tC:" ++
          Nat.repr (Coordinator.protocol c its).1.successful_ops ++ "\tA:" ++
          Nat.repr (Coordinator.protocol c its).1.failed_ops ++ "\tU:0") := by
  have hrun : ∀ c its, (Coordinator.protocol c its).1.unknown_ops = c.unknown_ops :=
    fun c its => coord_run_loop_unknown its c
  refine ⟨rfl, hrun, ?_⟩
  intro c its h
  unfold report_status
  rw [hrun c its, h]
  rw [String.append_assoc _ "\tU:" (Nat.repr 0)]
  rfl

theorem coordinator_unknown_zero_witness :
    report_status (Coordinator.protocol Coordinator.new []).1 =
      "coordinator:\tC:" ++
        Nat.repr (Coordinator.protocol Coordinator.new []).1.successful_ops ++
        "\tA:" ++ Nat.repr (Coordinator.protocol Coordinator.new []).1.failed_ops ++
        "\tU:0" :=
  coordinator_unknown_zero.2.2 Coordinator.new [] rfl

/-- C9: an errored non-blocking receive makes the coordinator skip that peer
for the iteration: request pickup and vote polling continue with the
remaining peers, no entry is ever removed from either peer map during
protocol, and an iteration in which no request is picked up leaves the
coordinator entirely unchanged. -/
theorem coordinator_skips_errored_peer :
    (∀ name rest, poll_clients ((name, RecvResult.ipcError) :: rest) =
      poll_clients rest) ∧
    (∀ txid vc va seen rest,
      poll_votes_once txid vc va seen (RecvResult.ipcError :: rest) =
        poll_votes_once txid vc va seen rest) ∧
    (∀ c its, (Coordinator.protocol c its).1.participant_map = c.participant_map ∧
      (Coordinator.protocol c its).1.client_map = c.client_map) ∧
    (∀ c it, poll_clients (c.client_map.zip it.clientRecvs) = none →
      coord_step c it = (c, [])) := by
  refine ⟨fun name rest => rfl, fun txid vc va seen rest => rfl, ?_, ?_⟩
  · intro c its
    exact coord_run_loop_maps its c
  · intro c it h
    unfold coord_step
    rw [h]

theorem coordinator_skips_errored_peer_witness :
    coord_step { Coordinator.new with client_map := ["client_0"] }
        { running := true, clientRecvs := [RecvResult.ipcError], voteRounds := [] } =
      ({ Coordinator.new with client_map := ["client_0"] }, []) :=
  coordinator_skips_errored_peer.2.2.2
    { Coordinator.new with client_map := ["client_0"] }
    { running := true, clientRecvs := [RecvResult.ipcError], voteRounds := [] }
    rfl

/-- C2: within each transaction the coordinator appends the decided message
type to its log strictly before any send of that decision to a participant
and before the matching ClientResult send to the originating client: the
action trace splits at the log append, no action before it is a
decision/result send, and every decision/result send in the trace carries
the decided type. -/
theorem decision_logged_before_broadcast (c : Coordinator)
    (req : ProtocolMessage) (client_id : String) (rounds : List VoteRound) :
    ∃ dt pr post,
      (coord_transaction c req client_id rounds).2 =
        pr ++ CoordAction.logAppend
          (ProtocolMessage.generate dt req.txid "coordinator" req.opid) :: post ∧
      (dt = MessageType.CoordinatorCommit ∨ dt = MessageType.CoordinatorAbort) ∧
      (∀ a ∈ pr, decision_send_of a = none) ∧
      (∀ a ∈ (coord_transaction c req client_id rounds).2,
        ∀ d, decision_send_of a = some d → d = dt) := by
  by_cases h : commit_decision c req rounds
  · refine ⟨MessageType.CoordinatorCommit,
      c.participant_map.map (fun nm => CoordAction.sendToParticipant nm
        (ProtocolMessage.generate MessageType.CoordinatorPropose req.txid
          "coordinator" req.opid)),
      c.participant_map.map (fun nm => CoordAction.sendToParticipant nm
        (ProtocolMessage.generate MessageType.CoordinatorCommit req.txid
          "coordinator" req.opid)) ++
        (if client_id ∈ c.client_map then
          [CoordAction.sendToClient client_id (ProtocolMessage.generate
            MessageType.ClientResultCommit req.txid "coordinator" req.opid)]
        else []), ?_, Or.inl rfl, ?_, ?_⟩
    · rw [coord_transaction_snd]
      simp [h]
    · intro a ha
      simp only [List.mem_map] at ha
      obtain ⟨nm, _, rfl⟩ := ha
      rfl
    · intro a ha d hd
      rw [coord_transaction_snd] at ha
      simp only [h, if_true, List.mem_append, List.mem_cons, List.mem_map] at ha
      rcases ha with (⟨nm, _, rfl⟩ | rfl | ⟨nm, _, rfl⟩ | hres)
      · exact absurd hd (by simp [decision_send_of, ProtocolMessage.generate])
      · exact absurd hd (by simp [decision_send_of])
      · have : d = MessageType.CoordinatorCommit := by
          simpa [decision_send_of, ProtocolMessage.generate] using hd.symm
        exact this
      · by_cases hmem : client_id ∈ c.client_map
        · rw [if_pos hmem] at hres
          simp only [List.mem_singleton] at hres
          subst hres
          simpa [decision_send_of, ProtocolMessage.generate] using hd.symm
        · rw [if_neg hmem] at hres
          simp at hres
  · refine ⟨MessageType.CoordinatorAbort,
      c.participant_map.map (fun nm => CoordAction.sendToParticipant nm
        (ProtocolMessage.generate MessageType.CoordinatorPropose req.txid
          "coordinator" req.opid)),
      c.participant_map.map (fun nm => CoordAction.sendToParticipant nm
        (ProtocolMessage.generate MessageType.CoordinatorAbort req.txid
          "coordinator" req.opid)) ++
        (if client_id ∈ c.client_map then
          [CoordAction.sendToClient client_id (ProtocolMessage.generate
            MessageType.ClientResultAbort req.txid "coordinator" req.opid)]
        else []), ?_, Or.inr rfl, ?_, ?_⟩
    · rw [coord_transaction_snd]
      simp [h]
    · intro a ha
      simp only [List.mem_map] at ha
      obtain ⟨nm, _, rfl⟩ := ha
      rfl
    · intro a ha d hd
      rw [coord_transaction_snd] at ha
      simp only [h, if_false, List.mem_append, List.mem_cons, List.mem_map] at ha
      rcases ha with (⟨nm, _, rfl⟩ | rfl | ⟨nm, _, rfl⟩ | hres)
      · exact absurd hd (by simp [decision_send_of, ProtocolMessage.generate])
      · exact absurd hd (by simp [decision_send_of])
      · have : d = MessageType.CoordinatorAbort := by
          simpa [decision_send_of, ProtocolMessage.generate] using hd.symm
        exact this
      · by_cases hmem : client_id ∈ c.client_map
        · rw [if_pos hmem] at hres
          simp only [List.mem_singleton] at hres
          subst hres
          simpa [decision_send_of, ProtocolMessage.generate] using hd.symm
        · rw [if_neg hmem] at hres
          simp at hres

/-- C4 counterexample: a participant awaiting the global decision for
txid "client_0_op_1" receives the coordinator's actual exit message, whose
txid is "exit"; the message is discarded by the txid filter, the wait
continues, a later matching CoordinatorCommit is applied, and unknown_ops
stays 0 — not the claimed unknown++ and immediate end of the wait. -/
theorem await_exit_cex :
    await_global_decision (Participant.new "participant_0") "client_0_op_1" 1
        [⟨true, true, RecvResult.ok (ProtocolMessage.generate
            MessageType.CoordinatorExit "exit" "coordinator" 0)⟩,
          ⟨true, true, RecvResult.ok (ProtocolMessage.generate
            MessageType.CoordinatorCommit "client_0_op_1" "coordinator" 1)⟩] =
      { Participant.new "participant_0" with
          successful_ops := 1
          log := [ProtocolMessage.generate MessageType.CoordinatorCommit
            "client_0_op_1" "participant_0" 1] } ∧
    (await_global_decision (Participant.new "participant_0") "client_0_op_1" 1
        [⟨true, true, RecvResult.ok (ProtocolMessage.generate
            MessageType.CoordinatorExit "exit" "coordinator" 0)⟩,
          ⟨true, true, RecvResult.ok (ProtocolMessage.generate
            MessageType.CoordinatorCommit "client_0_op_1" "coordinator" 1)⟩]).unknown_ops
      = 0 := by
  constructor <;> decide

/-- C4 (amended): while AwaitingGlobalDecision every received message whose
txid does not match the in-flight transaction is discarded with no state
change — including the coordinator's actual exit message, whose txid is
"exit" — and it is a CoordinatorExit carrying the matching txid that
increments unknown_ops and ends the wait; the wrapper always returns the
participant to Quiescent. -/
theorem await_exit_matching (p : Participant) (txid : String) (opid : Nat)
    (m : ProtocolMessage) (rest : List AwaitRound) :
    (m.txid = txid → m.mtype = MessageType.CoordinatorExit →
      await_global_decision p txid opid (⟨true, true, RecvResult.ok m⟩ :: rest) =
        { p with unknown_ops := inc64 p.unknown_ops
                 state := ParticipantState.Quiescent }) ∧
    (m.txid ≠ txid →
      await_decision_loop txid opid p (⟨true, true, RecvResult.ok m⟩ :: rest) =
        await_decision_loop txid opid p rest) ∧
    (∀ rounds, (await_global_decision p txid opid rounds).state =
      ParticipantState.Quiescent) := by
  refine ⟨?_, ?_, fun rounds => rfl⟩
  · intro h1 h2
    simp [await_global_decision, await_decision_loop, h1, h2]
  · intro h1
    simp [await_decision_loop, h1]

theorem await_exit_matching_witness :
    await_global_decision (Participant.new "participant_0") "client_0_op_1" 1
        [⟨true, true, RecvResult.ok (ProtocolMessage.generate
          MessageType.CoordinatorExit "client_0_op_1" "coordinator" 1)⟩] =
      { Participant.new "participant_0" with
          unknown_ops := inc64 (Participant.new "participant_0").unknown_ops
          state := ParticipantState.Quiescent } :=
  (await_exit_matching (Participant.new "participant_0") "client_0_op_1" 1
    (ProtocolMessage.generate MessageType.CoordinatorExit "client_0_op_1"
      "coordinator" 1) []).1 rfl rfl

/-- C6 counterexample: the governed rule is `x <= prob`, so with
operation_success_prob = 0.0 the in-range uniform draw x = 0 makes
perform_operation return true, and such a transaction can commit rather
than abort. -/
theorem perform_operation_zero_cex :
    (0 : ℚ) ≤ 0 ∧ (0 : ℚ) < 1 ∧ perform_operation 0 0 = true := by
  refine ⟨le_refl 0, by norm_num, by decide⟩

/-- C6 (amended): with operation_success_prob = 0.0, perform_operation
returns true exactly on the single draw x = 0 of [0,1); for every positive
draw it returns false, so "every transaction aborts" holds except on the
measure-zero event x = 0. -/
theorem perform_operation_zero (x : ℚ) (h0 : 0 ≤ x) (h1 : x < 1) :
    perform_operation x 0 = true ↔ x = 0 := by
  unfold perform_operation
  by_cases h : x ≤ 0
  · rw [if_pos h]
    simp [le_antisymm h h0]
  · rw [if_neg h]
    simp only [Bool.false_eq_true, false_iff]
    intro hx
    exact h (le_of_eq hx)

theorem perform_operation_zero_witness :
    perform_operation (1 / 2) 0 = true ↔ (1 / 2 : ℚ) = 0 :=
  perform_operation_zero (1 / 2) (by norm_num) (by norm_num)

theorem headD_eq_getD_zero (l : List ClientIter) (d : ClientIter) :
    l.headD d = l.getD 0 d := by
  cases l <;> rfl

theorem tail_getD (l : List ClientIter) (k : Nat) (d : ClientIter) :
    l.tail.getD k d = l.getD (k + 1) d := by
  cases l <;> rfl

theorem two_pow_64_eq : (2 : Nat) ^ 64 = 18446744073709551616 := by norm_num

theorem two_pow_32_eq : (2 : Nat) ^ 32 = 4294967296 := by norm_num

theorem recv_result_spec : ∀ (rounds : List ClientRound) (c : Client),
    c.successful_ops + c.failed_ops + c.unknown_ops + 1 < 2 ^ 64 →
    ((recv_result c rounds).successful_ops + (recv_result c rounds).failed_ops +
        (recv_result c rounds).unknown_ops =
      c.successful_ops + c.failed_ops + c.unknown_ops + 1) ∧
      (recv_result c rounds).num_requests = c.num_requests ∧
      (recv_result c rounds).id_str = c.id_str := by
  intro rounds
  induction rounds with
  | nil =>
      intro c h
      rw [two_pow_64_eq] at h
      refine ⟨?_, rfl, rfl⟩
      show c.successful_ops + c.failed_ops + inc64 c.unknown_ops = _
      unfold inc64
      rw [two_pow_64_eq]
      omega
  | cons r rest ih =>
      intro c h
      rcases r with ⟨t, run, rv⟩
      cases t
      · cases run
        · have hred : recv_result c (⟨false, false, rv⟩ :: rest) =
              { c with unknown_ops := inc64 c.unknown_ops } := rfl
          rw [hred]
          refine ⟨?_, rfl, rfl⟩
          show c.successful_ops + c.failed_ops + inc64 c.unknown_ops = _
          unfold inc64
          rw [two_pow_64_eq] at *
          omega
        · cases rv with
          | ok m =>
              have hred : recv_result c (⟨false, true, RecvResult.ok m⟩ :: rest) =
                  (if m.mtype = MessageType.ClientResultCommit then
                    { c with successful_ops := inc64 c.successful_ops }
                  else if m.mtype = MessageType.ClientResultAbort then
                    { c with failed_ops := inc64 c.failed_ops }
                  else if m.mtype = MessageType.CoordinatorExit then
                    { c with unknown_ops := inc64 c.unknown_ops }
                  else recv_result c rest) := rfl
              rw [hred]
              by_cases h1 : m.mtype = MessageType.ClientResultCommit
              · rw [if_pos h1]
                refine ⟨?_, rfl, rfl⟩
                show inc64 c.successful_ops + c.failed_ops + c.unknown_ops = _
                unfold inc64
                rw [two_pow_64_eq] at *
                omega
              · rw [if_neg h1]
                by_cases h2 : m.mtype = MessageType.ClientResultAbort
                · rw [if_pos h2]
                  refine ⟨?_, rfl, rfl⟩
                  show c.successful_ops + inc64 c.failed_ops + c.unknown_ops = _
                  unfold inc64
                  rw [two_pow_64_eq] at *
                  omega
                · rw [if_neg h2]
                  by_cases h3 : m.mtype = MessageType.CoordinatorExit
                  · rw [if_pos h3]
                    refine ⟨?_, rfl, rfl⟩
                    show c.successful_ops + c.failed_ops + inc64 c.unknown_ops = _
                    unfold inc64
                    rw [two_pow_64_eq] at *
                    omega
                  · rw [if_neg h3]
                    exact ih c h
          | empty =>
              have hred : recv_result c (⟨false, true, RecvResult.empty⟩ :: rest) =
                  recv_result c rest := rfl
              rw [hred]
              exact ih c h
          | ipcError =>
              have hred : recv_result c (⟨false, true, RecvResult.ipcError⟩ :: rest) =
                  { c with unknown_ops := inc64 c.unknown_ops } := rfl
              rw [hred]
              refine ⟨?_, rfl, rfl⟩
              show c.successful_ops + c.failed_ops + inc64 c.unknown_ops = _
              unfold inc64
              rw [two_pow_64_eq] at *
              omega
      · have hred : recv_result c (⟨true, run, rv⟩ :: rest) =
            { c with unknown_ops := inc64 c.unknown_ops } := rfl
        rw [hred]
        refine ⟨?_, rfl, rfl⟩
        show c.successful_ops + c.failed_ops + inc64 c.unknown_ops = _
        unfold inc64
        rw [two_pow_64_eq] at *
        omega

theorem client_loop_spec : ∀ (n : Nat) (its : List ClientIter) (c : Client),
    c.successful_ops + c.failed_ops + c.unknown_ops = c.num_requests →
    c.num_requests + n < 2 ^ 32 →
    ((client_loop c n its).successful_ops + (client_loop c n its).failed_ops +
        (client_loop c n its).unknown_ops = (client_loop c n its).num_requests) ∧
      c.num_requests ≤ (client_loop c n its).num_requests ∧
      (client_loop c n its).num_requests ≤ c.num_requests + n ∧
      (client_loop c n its).id_str = c.id_str ∧
      ((∀ k, k < n → (its.getD k defaultClientIter).running = true) →
        (client_loop c n its).num_requests = c.num_requests + n) := by
  intro n
  induction n with
  | zero =>
      intro its c hsum _
      have hred : client_loop c 0 its = c := rfl
      rw [hred]
      exact ⟨hsum, Nat.le_refl _, by omega, rfl, fun _ => by omega⟩
  | succ n ih =>
      intro its c hsum hbound
      have h32 := two_pow_32_eq
      by_cases hr : (its.headD defaultClientIter).running = true
      · have hstep : client_loop c (n + 1) its =
            client_loop (recv_result (send_next_operation c).1
              (its.headD defaultClientIter).rounds) n its.tail := by
          simp only [client_loop, hr, if_true]
        have hnum1 : (send_next_operation c).1.num_requests = c.num_requests + 1 := by
          show inc32 c.num_requests = c.num_requests + 1
          unfold inc32
          rw [h32] at *
          omega
        have hsum1 : (send_next_operation c).1.successful_ops +
            (send_next_operation c).1.failed_ops +
            (send_next_operation c).1.unknown_ops = c.num_requests := hsum
        have hrrbound : (send_next_operation c).1.successful_ops +
            (send_next_operation c).1.failed_ops +
            (send_next_operation c).1.unknown_ops + 1 < 2 ^ 64 := by
          rw [hsum1, two_pow_64_eq]
          rw [h32] at hbound
          omega
        have hrr := recv_result_spec (its.headD defaultClientIter).rounds
          (send_next_operation c).1 hrrbound
        set c2 := recv_result (send_next_operation c).1
          (its.headD defaultClientIter).rounds with hc2
        have hsum2 : c2.successful_ops + c2.failed_ops + c2.unknown_ops =
            c2.num_requests := by
          rw [hrr.1, hsum1, hrr.2.1, hnum1]
        have hnum2 : c2.num_requests = c.num_requests + 1 := by
          rw [hrr.2.1, hnum1]
        have hbound2 : c2.num_requests + n < 2 ^ 32 := by
          rw [hnum2]
          omega
        have hrec := ih its.tail c2 hsum2 hbound2
        rw [hstep]
        refine ⟨hrec.1, ?_, ?_, ?_, ?_⟩
        · calc c.num_requests ≤ c2.num_requests := by omega
            _ ≤ (client_loop c2 n its.tail).num_requests := hrec.2.1
        · have := hrec.2.2.1
          omega
        · rw [hrec.2.2.2.1, hrr.2.2]
          rfl
        · intro hall
          have hall' : ∀ k, k < n →
              (its.tail.getD k defaultClientIter).running = true := by
            intro k hk
            rw [tail_getD]
            exact hall (k + 1) (by omega)
          rw [hrec.2.2.2.2 hall', hnum2]
          omega
      · have hstep : client_loop c (n + 1) its = c := by
          have hunf : client_loop c (n + 1) its =
              if (its.headD defaultClientIter).running = true then
                client_loop (recv_result (send_next_operation c).1
                  (its.headD defaultClientIter).rounds) n its.tail
              else c := rfl
          rw [hunf, if_neg hr]
        rw [hstep]
        refine ⟨hsum, Nat.le_refl _, by omega, rfl, ?_⟩
        intro hall
        exfalso
        apply hr
        rw [headD_eq_getD_zero]
        exact hall 0 (by omega)

/-- C3 counterexample: a client running protocol(1) that observes the
shutdown flag cleared at the top of its only iteration issues no request and
bumps no counter, so successful + failed + unknown = 0, not n_requests = 1. -/
theorem client_counter_sum_cex :
    (Client.protocol (Client.new "client_0") 1
          [{ running := false, rounds := [] }]).successful_ops +
        (Client.protocol (Client.new "client_0") 1
          [{ running := false, rounds := [] }]).failed_ops +
        (Client.protocol (Client.new "client_0") 1
          [{ running := false, rounds := [] }]).unknown_ops = 0 ∧
      (0 : Nat) ≠ 1 := by
  exact ⟨rfl, by omega⟩

/-- C3 (amended): at return from Client::protocol(n_requests) the counters
satisfy successful + failed + unknown = number of requests actually issued
(the final num_requests); this number is at most n_requests, and equals
n_requests exactly when the shutdown flag was still set at every top-of-loop
check — if the flag is cleared while requests remain unissued, the sum falls
short of n_requests by the unissued count. -/
theorem client_counter_sum (id : String) (n : Nat) (its : List ClientIter)
    (h : n < 2 ^ 32) :
    ((Client.protocol (Client.new id) n its).successful_ops +
        (Client.protocol (Client.new id) n its).failed_ops +
        (Client.protocol (Client.new id) n its).unknown_ops =
      (Client.protocol (Client.new id) n its).num_requests) ∧
      (Client.protocol (Client.new id) n its).num_requests ≤ n ∧
      ((∀ k, k < n → (its.getD k defaultClientIter).running = true) →
        (Client.protocol (Client.new id) n its).num_requests = n) := by
  have hb : (Client.new id).num_requests + n < 2 ^ 32 := by
    show 0 + n < 2 ^ 32
    rw [Nat.zero_add]
    exact h
  have hspec := client_loop_spec n its (Client.new id) rfl hb
  have hzero : (Client.new id).num_requests = 0 := rfl
  refine ⟨hspec.1, ?_, fun hall => ?_⟩
  · have hle := hspec.2.2.1
    rw [hzero] at hle
    simpa using hle
  · have heq := hspec.2.2.2.2 hall
    rw [hzero] at heq
    simpa using heq

theorem client_counter_sum_witness :
    ((Client.protocol (Client.new "client_0") 2 []).successful_ops +
        (Client.protocol (Client.new "client_0") 2 []).failed_ops +
        (Client.protocol (Client.new "client_0") 2 []).unknown_ops =
      (Client.protocol (Client.new "client_0") 2 []).num_requests) ∧
      (Client.protocol (Client.new "client_0") 2 []).num_requests ≤ 2 ∧
      ((∀ k, k < 2 → (([] : List ClientIter).getD k defaultClientIter).running
          = true) →
        (Client.protocol (Client.new "client_0") 2 []).num_requests = 2) :=
  client_counter_sum "client_0" 2 [] (by norm_num)

theorem countVotes_nil (txid : String) (t : MessageType) :
    countVotes [] txid t = 0 := rfl

theorem countVotes_append_one (seen : List ProtocolMessage)
    (m : ProtocolMessage) (txid : String) (t : MessageType) :
    countVotes (seen ++ [m]) txid t =
      countVotes seen txid t +
        (if m.txid == txid && m.mtype == t then 1 else 0) := by
  unfold countVotes
  rw [List.countP_append, List.countP_cons]
  simp

theorem poll_votes_once_spec (txid : String) :
    ∀ (recvs : List RecvResult) (vc va : Nat) (seen : List ProtocolMessage),
    vc = countVotes seen txid MessageType.ParticipantVoteCommit % 2 ^ 64 →
    va = countVotes seen txid MessageType.ParticipantVoteAbort % 2 ^ 64 →
    ((poll_votes_once txid vc va seen recvs).1 =
        countVotes (poll_votes_once txid vc va seen recvs).2.2 txid
          MessageType.ParticipantVoteCommit % 2 ^ 64) ∧
      ((poll_votes_once txid vc va seen recvs).2.1 =
        countVotes (poll_votes_once txid vc va seen recvs).2.2 txid
          MessageType.ParticipantVoteAbort % 2 ^ 64) := by
  intro recvs
  induction recvs with
  | nil => exact fun vc va seen hvc hva => ⟨hvc, hva⟩
  | cons rv rest ih =>
      intro vc va seen hvc hva
      cases rv with
      | ok m =>
          by_cases h1 : m.txid = txid
          · by_cases h2 : m.mtype = MessageType.ParticipantVoteCommit
            · have hred : poll_votes_once txid vc va seen (RecvResult.ok m :: rest) =
                  poll_votes_once txid (inc64 vc) va (seen ++ [m]) rest := by
                simp only [poll_votes_once, if_pos h1, if_pos h2]
              rw [hred]
              refine ih (inc64 vc) va (seen ++ [m]) ?_ ?_
              · rw [countVotes_append_one]
                have hcond : (m.txid == txid &&
                    m.mtype == MessageType.ParticipantVoteCommit) = true := by
                  simp [h1, h2]
                rw [hcond, if_pos rfl, hvc]
                unfold inc64
                rw [Nat.mod_add_mod]
              · rw [countVotes_append_one]
                have hcond : (m.txid == txid &&
                    m.mtype == MessageType.ParticipantVoteAbort) = false := by
                  simp [h2]
                rw [hcond]
                simpa using hva
            · by_cases h3 : m.mtype = MessageType.ParticipantVoteAbort
              · have hred : poll_votes_once txid vc va seen (RecvResult.ok m :: rest) =
                    poll_votes_once txid vc (inc64 va) (seen ++ [m]) rest := by
                  simp only [poll_votes_once, if_pos h1, if_neg h2, if_pos h3]
                rw [hred]
                refine ih vc (inc64 va) (seen ++ [m]) ?_ ?_
                · rw [countVotes_append_one]
                  have hcond : (m.txid == txid &&
                      m.mtype == MessageType.ParticipantVoteCommit) = false := by
                    simp [h3]
                  rw [hcond]
                  simpa using hvc
                · rw [countVotes_append_one]
                  have hcond : (m.txid == txid &&
                      m.mtype == MessageType.ParticipantVoteAbort) = true := by
                    simp [h1, h3]
                  rw [hcond, if_pos rfl, hva]
                  unfold inc64
                  rw [Nat.mod_add_mod]
              · have hred : poll_votes_once txid vc va seen (RecvResult.ok m :: rest) =
                    poll_votes_once txid vc va (seen ++ [m]) rest := by
                  simp only [poll_votes_once, if_pos h1, if_neg h2, if_neg h3]
                rw [hred]
                refine ih vc va (seen ++ [m]) ?_ ?_
                · rw [countVotes_append_one]
                  have hcond : (m.txid == txid &&
                      m.mtype == MessageType.ParticipantVoteCommit) = false := by
                    simp [h2]
                  rw [hcond]
                  simpa using hvc
                · rw [countVotes_append_one]
                  have hcond : (m.txid == txid &&
                      m.mtype == MessageType.ParticipantVoteAbort) = false := by
                    simp [h3]
                  rw [hcond]
                  simpa using hva
          · have hred : poll_votes_once txid vc va seen (RecvResult.ok m :: rest) =
                poll_votes_once txid vc va (seen ++ [m]) rest := by
              simp only [poll_votes_once, if_neg h1]
            rw [hred]
            refine ih vc va (seen ++ [m]) ?_ ?_
            · rw [countVotes_append_one]
              have hcond : (m.txid == txid &&
                  m.mtype == MessageType.ParticipantVoteCommit) = false := by
                simp [h1]
              rw [hcond]
              simpa using hvc
            · rw [countVotes_append_one]
              have hcond : (m.txid == txid &&
                  m.mtype == MessageType.ParticipantVoteAbort) = false := by
                simp [h1]
              rw [hcond]
              simpa using hva
      | empty => exact ih vc va seen hvc hva
      | ipcError => exact ih vc va seen hvc hva

theorem collect_votes_spec (txid : String) (n : Nat) :
    ∀ (rounds : List VoteRound) (vc va : Nat) (seen : List ProtocolMessage),
    vc = countVotes seen txid MessageType.ParticipantVoteCommit % 2 ^ 64 →
    va = countVotes seen txid MessageType.ParticipantVoteAbort % 2 ^ 64 →
    ((collect_votes txid n vc va seen rounds).1 =
        countVotes (collect_votes txid n vc va seen rounds).2.2 txid
          MessageType.ParticipantVoteCommit % 2 ^ 64) ∧
      ((collect_votes txid n vc va seen rounds).2.1 =
        countVotes (collect_votes txid n vc va seen rounds).2.2 txid
          MessageType.ParticipantVoteAbort % 2 ^ 64) := by
  intro rounds
  induction rounds with
  | nil => exact fun vc va seen hvc hva => ⟨hvc, hva⟩
  | cons r rest ih =>
      intro vc va seen hvc hva
      by_cases hg : vc + va < n
      · by_cases ht : r.timedOut = true
        · have hred : collect_votes txid n vc va seen (r :: rest) = (vc, va, seen) := by
            simp only [collect_votes, if_pos hg, if_pos ht]
          rw [hred]
          exact ⟨hvc, hva⟩
        · by_cases hr : r.running = true
          · by_cases ha : va > 0
            · have hred : collect_votes txid n vc va seen (r :: rest) =
                  (vc, va, seen) := by
                simp only [collect_votes, if_pos hg, if_neg ht, if_pos hr, if_pos ha]
              rw [hred]
              exact ⟨hvc, hva⟩
            · have hred : collect_votes txid n vc va seen (r :: rest) =
                  collect_votes txid n
                    (poll_votes_once txid vc va seen r.recvs).1
                    (poll_votes_once txid vc va seen r.recvs).2.1
                    (poll_votes_once txid vc va seen r.recvs).2.2 rest := by
                simp only [collect_votes, if_pos hg, if_neg ht, if_pos hr, if_neg ha]
              rw [hred]
              have hpoll := poll_votes_once_spec txid r.recvs vc va seen hvc hva
              exact ih _ _ _ hpoll.1 hpoll.2
          · have hred : collect_votes txid n vc va seen (r :: rest) =
                (vc, va, seen) := by
              simp only [collect_votes, if_pos hg, if_neg ht, if_neg hr]
            rw [hred]
            exact ⟨hvc, hva⟩
      · have hred : collect_votes txid n vc va seen (r :: rest) = (vc, va, seen) := by
          simp only [collect_votes, if_neg hg]
        rw [hred]
        exact ⟨hvc, hva⟩

theorem logAppend_mem_coord_transaction (c : Coordinator) (req : ProtocolMessage)
    (client_id : String) (rounds : List VoteRound) (mm : ProtocolMessage) :
    (CoordAction.logAppend mm ∈ (coord_transaction c req client_id rounds).2) ↔
      mm = ProtocolMessage.generate
        (if commit_decision c req rounds then MessageType.CoordinatorCommit
          else MessageType.CoordinatorAbort) req.txid "coordinator" req.opid := by
  rw [coord_transaction_snd]
  by_cases hmem : client_id ∈ c.client_map
  · rw [if_pos hmem]
    simp
  · rw [if_neg hmem]
    simp

/-- C1: for every coordinator transaction, over any vote-collection script
(deadline, shutdown or early-abort exits included), the global decision —
the message type the coordinator logs — is CoordinatorCommit exactly when
the ParticipantVoteCommit votes counted for the request's txid number the
registered participants and no ParticipantVoteAbort vote was counted before
the loop exited; in every other case, including a timeout with a missing
vote, it is CoordinatorAbort. -/
theorem coordinator_commit_iff (c : Coordinator) (req : ProtocolMessage)
    (client_id : String) (rounds : List VoteRound)
    (h : (tx_votes c req rounds).2.2.length < 2 ^ 64) :
    ((CoordAction.logAppend (ProtocolMessage.generate MessageType.CoordinatorCommit
          req.txid "coordinator" req.opid) ∈
        (coord_transaction c req client_id rounds).2) ↔
      (countVotes (tx_votes c req rounds).2.2 req.txid
          MessageType.ParticipantVoteCommit = c.participant_map.length ∧
        countVotes (tx_votes c req rounds).2.2 req.txid
          MessageType.ParticipantVoteAbort = 0)) ∧
    ((CoordAction.logAppend (ProtocolMessage.generate MessageType.CoordinatorAbort
          req.txid "coordinator" req.opid) ∈
        (coord_transaction c req client_id rounds).2) ↔
      ¬(countVotes (tx_votes c req rounds).2.2 req.txid
          MessageType.ParticipantVoteCommit = c.participant_map.length ∧
        countVotes (tx_votes c req rounds).2.2 req.txid
          MessageType.ParticipantVoteAbort = 0)) := by
  have htx : tx_votes c req rounds =
      collect_votes req.txid c.participant_map.length 0 0 [] rounds := rfl
  have hcv := collect_votes_spec req.txid c.participant_map.length rounds 0 0 []
    (by rw [countVotes_nil, Nat.zero_mod]) (by rw [countVotes_nil, Nat.zero_mod])
  rw [← htx] at hcv
  have hvc : (tx_votes c req rounds).1 =
      countVotes (tx_votes c req rounds).2.2 req.txid
        MessageType.ParticipantVoteCommit := by
    rw [hcv.1]
    exact Nat.mod_eq_of_lt (lt_of_le_of_lt (List.countP_le_length _) h)
  have hva : (tx_votes c req rounds).2.1 =
      countVotes (tx_votes c req rounds).2.2 req.txid
        MessageType.ParticipantVoteAbort := by
    rw [hcv.2]
    exact Nat.mod_eq_of_lt (lt_of_le_of_lt (List.countP_le_length _) h)
  have hcd_iff : commit_decision c req rounds = true ↔
      (countVotes (tx_votes c req rounds).2.2 req.txid
          MessageType.ParticipantVoteCommit = c.participant_map.length ∧
        countVotes (tx_votes c req rounds).2.2 req.txid
          MessageType.ParticipantVoteAbort = 0) := by
    unfold commit_decision
    rw [hvc, hva]
    simp
  constructor
  · rw [logAppend_mem_coord_transaction]
    by_cases hcd : commit_decision c req rounds
    · rw [if_pos hcd]
      exact ⟨fun _ => hcd_iff.mp hcd, fun _ => rfl⟩
    · rw [if_neg hcd]
      constructor
      · intro he
        exact absurd (congrArg ProtocolMessage.mtype he) (by simp [ProtocolMessage.generate])
      · intro hcounts
        exact absurd (hcd_iff.mpr hcounts) hcd
  · rw [logAppend_mem_coord_transaction]
    by_cases hcd : commit_decision c req rounds
    · rw [if_pos hcd]
      constructor
      · intro he
        exact absurd (congrArg ProtocolMessage.mtype he) (by simp [ProtocolMessage.generate])
      · intro hcounts
        exact absurd (hcd_iff.mp hcd) hcounts
    · rw [if_neg hcd]
      constructor
      · intro _ hcounts
        exact hcd (hcd_iff.mpr hcounts)
      · intro _
        rfl

theorem coordinator_commit_iff_witness :
    (CoordAction.logAppend (ProtocolMessage.generate MessageType.CoordinatorCommit
          sampleRequest.txid "coordinator" sampleRequest.opid) ∈
        (coord_transaction sampleCoordinator sampleRequest "client_0" sampleRounds).2) ↔
      (countVotes (tx_votes sampleCoordinator sampleRequest sampleRounds).2.2
          sampleRequest.txid MessageType.ParticipantVoteCommit =
        sampleCoordinator.participant_map.length ∧
        countVotes (tx_votes sampleCoordinator sampleRequest sampleRounds).2.2
          sampleRequest.txid MessageType.ParticipantVoteAbort = 0) :=
  (coordinator_commit_iff sampleCoordinator sampleRequest "client_0" sampleRounds
    (by decide)).1

theorem decision_logged_before_broadcast_witness :
    ∃ dt pr post,
      (coord_transaction sampleCoordinator sampleRequest "client_0" sampleRounds).2 =
        pr ++ CoordAction.logAppend (ProtocolMessage.generate dt sampleRequest.txid
          "coordinator" sampleRequest.opid) :: post ∧
      (dt = MessageType.CoordinatorCommit ∨ dt = MessageType.CoordinatorAbort) ∧
      (∀ a ∈ pr, decision_send_of a = none) ∧
      (∀ a ∈ (coord_transaction sampleCoordinator sampleRequest "client_0"
          sampleRounds).2, ∀ d, decision_send_of a = some d → d = dt) :=
  decision_logged_before_broadcast sampleCoordinator sampleRequest "client_0"
    sampleRounds

theorem countLog_append_one (l : List ProtocolMessage) (m : ProtocolMessage)
    (t : MessageType) :
    countLog (l ++ [m]) t = countLog l t + (if m.mtype == t then 1 else 0) := by
  unfold countLog
  rw [List.countP_append, List.countP_cons]
  simp

theorem coord_transaction_log_counters (c : Coordinator) (req : ProtocolMessage)
    (client_id : String) (rounds : List VoteRound) :
    (coord_transaction c req client_id rounds).1.log =
      c.log ++ [ProtocolMessage.generate
        (if commit_decision c req rounds then MessageType.CoordinatorCommit
          else MessageType.CoordinatorAbort) req.txid "coordinator" req.opid] ∧
    (commit_decision c req rounds = true →
      (coord_transaction c req client_id rounds).1.successful_ops =
          inc64 c.successful_ops ∧
        (coord_transaction c req client_id rounds).1.failed_ops = c.failed_ops) ∧
    (commit_decision c req rounds = false →
      (coord_transaction c req client_id rounds).1.successful_ops =
          c.successful_ops ∧
        (coord_transaction c req client_id rounds).1.failed_ops =
          inc64 c.failed_ops) := by
  rw [coord_transaction_fst]
  by_cases hcd : commit_decision c req rounds
  · simp [hcd]
  · simp [hcd]

theorem counter_log_agree_transaction (c : Coordinator) (req : ProtocolMessage)
    (client_id : String) (rounds : List VoteRound)
    (h : counter_log_agree c) :
    counter_log_agree (coord_transaction c req client_id rounds).1 := by
  obtain ⟨hs, hf⟩ := h
  obtain ⟨hlog, hpos, hneg⟩ := coord_transaction_log_counters c req client_id rounds
  unfold counter_log_agree
  by_cases hcd : commit_decision c req rounds
  · obtain ⟨h1, h2⟩ := hpos hcd
    rw [h1, h2, hlog, if_pos hcd]
    constructor
    · rw [countLog_append_one]
      have hcond : ((ProtocolMessage.generate MessageType.CoordinatorCommit
          req.txid "coordinator" req.opid).mtype ==
            MessageType.CoordinatorCommit) = true := by
        simp [ProtocolMessage.generate]
      rw [hcond, if_pos rfl, hs]
      unfold inc64
      rw [Nat.mod_add_mod]
    · rw [countLog_append_one]
      have hcond : ((ProtocolMessage.generate MessageType.CoordinatorCommit
          req.txid "coordinator" req.opid).mtype ==
            MessageType.CoordinatorAbort) = false := by
        simp [ProtocolMessage.generate]
      rw [hcond]
      simpa using hf
  · have hcd' : commit_decision c req rounds = false := by
      simpa using hcd
    obtain ⟨h1, h2⟩ := hneg hcd'
    rw [h1, h2, hlog, if_neg hcd]
    constructor
    · rw [countLog_append_one]
      have hcond : ((ProtocolMessage.generate MessageType.CoordinatorAbort
          req.txid "coordinator" req.opid).mtype ==
            MessageType.CoordinatorCommit) = false := by
        simp [ProtocolMessage.generate]
      rw [hcond]
      simpa using hs
    · rw [countLog_append_one]
      have hcond : ((ProtocolMessage.generate MessageType.CoordinatorAbort
          req.txid "coordinator" req.opid).mtype ==
            MessageType.CoordinatorAbort) = true := by
        simp [ProtocolMessage.generate]
      rw [hcond, if_pos rfl, hf]
      unfold inc64
      rw [Nat.mod_add_mod]

theorem counter_log_agree_step (c : Coordinator) (it : CoordIter)
    (h : counter_log_agree c) : counter_log_agree (coord_step c it).1 := by
  unfold coord_step
  cases hp : poll_clients (c.client_map.zip it.clientRecvs) with
  | none => exact h
  | some v => exact counter_log_agree_transaction c v.2 v.1 it.voteRounds h

theorem counter_log_agree_loop : ∀ (its : List CoordIter) (c : Coordinator),
    counter_log_agree c → counter_log_agree (coord_run_loop c its).1 := by
  intro its
  induction its with
  | nil => exact fun c h => h
  | cons it rest ih =>
      intro c h
      unfold coord_run_loop
      by_cases hr : it.running = true
      · simp only [hr, if_true]
        exact ih (coord_step c it).1 (counter_log_agree_step c it h)
      · simp only [hr, if_false]
        exact h

/-- C7: at every point of a coordinator run — at construction, across joins,
after each handled transaction, and after any protocol run — successful_ops
and failed_ops are the (u64) counts of CoordinatorCommit and
CoordinatorAbort entries in the oplog: each decision appends exactly one
entry of the decided type and bumps exactly the matching counter, and
whenever the counts are below 2^64 the counters equal them exactly. -/
theorem coordinator_counters_match_log :
    counter_log_agree Coordinator.new ∧
    (∀ c name c2, participant_join c name = some c2 →
      c2.log = c.log ∧ c2.successful_ops = c.successful_ops ∧
        c2.failed_ops = c.failed_ops) ∧
    (∀ c name c2, client_join c name = some c2 →
      c2.log = c.log ∧ c2.successful_ops = c.successful_ops ∧
        c2.failed_ops = c.failed_ops) ∧
    (∀ c req client_id rounds,
      (coord_transaction c req client_id rounds).1.log =
        c.log ++ [ProtocolMessage.generate
          (if commit_decision c req rounds then MessageType.CoordinatorCommit
            else MessageType.CoordinatorAbort) req.txid "coordinator" req.opid] ∧
      (commit_decision c req rounds = true →
        (coord_transaction c req client_id rounds).1.successful_ops =
            inc64 c.successful_ops ∧
          (coord_transaction c req client_id rounds).1.failed_ops =
            c.failed_ops) ∧
      (commit_decision c req rounds = false →
        (coord_transaction c req client_id rounds).1.successful_ops =
            c.successful_ops ∧
          (coord_transaction c req client_id rounds).1.failed_ops =
            inc64 c.failed_ops)) ∧
    (∀ c its, counter_log_agree c →
      counter_log_agree (Coordinator.protocol c its).1) ∧
    (∀ c its, counter_log_agree c →
      countLog (Coordinator.protocol c its).1.log MessageType.CoordinatorCommit
          < 2 ^ 64 →
      countLog (Coordinator.protocol c its).1.log MessageType.CoordinatorAbort
          < 2 ^ 64 →
      (Coordinator.protocol c its).1.successful_ops =
          countLog (Coordinator.protocol c its).1.log
            MessageType.CoordinatorCommit ∧
        (Coordinator.protocol c its).1.failed_ops =
          countLog (Coordinator.protocol c its).1.log
            MessageType.CoordinatorAbort) := by
  refine ⟨⟨rfl, rfl⟩, ?_, ?_, coord_transaction_log_counters, ?_, ?_⟩
  · intro c name c2 hj
    unfold participant_join at hj
    by_cases hq : c.state = CoordinatorState.Quiescent
    · rw [if_pos hq] at hj
      cases hj
      exact ⟨rfl, rfl, rfl⟩
    · rw [if_neg hq] at hj
      cases hj
  · intro c name c2 hj
    unfold client_join at hj
    by_cases hq : c.state = CoordinatorState.Quiescent
    · rw [if_pos hq] at hj
      cases hj
      exact ⟨rfl, rfl, rfl⟩
    · rw [if_neg hq] at hj
      cases hj
  · intro c its h
    exact counter_log_agree_loop its c h
  · intro c its h hlt1 hlt2
    have hagree := counter_log_agree_loop its c h
    obtain ⟨hs, hf⟩ := hagree
    constructor
    · rw [protocol_fst] at hlt1 ⊢
      rw [hs]
      exact Nat.mod_eq_of_lt hlt1
    · rw [protocol_fst] at hlt2 ⊢
      rw [hf]
      exact Nat.mod_eq_of_lt hlt2

theorem coordinator_counters_match_log_witness :
    (Coordinator.protocol sampleCoordinator []).1.successful_ops =
        countLog (Coordinator.protocol sampleCoordinator []).1.log
          MessageType.CoordinatorCommit ∧
      (Coordinator.protocol sampleCoordinator []).1.failed_ops =
        countLog (Coordinator.protocol sampleCoordinator []).1.log
          MessageType.CoordinatorAbort :=
  coordinator_counters_match_log.2.2.2.2.2 sampleCoordinator []
    ⟨rfl, rfl⟩ (by decide) (by decide)

theorem digitChar_isDigit (n : Nat) (h : n < 10) :
    (Nat.digitChar n).isDigit = true := by
  interval_cases n <;> decide

theorem toDigitsCore_all_digits : ∀ (f n : Nat) (ds : List Char),
    (∀ ch ∈ ds, ch.isDigit = true) →
    ∀ ch ∈ Nat.toDigitsCore 10 f n ds, ch.isDigit = true := by
  intro f
  induction f with
  | zero =>
      intro n ds h
      simpa [Nat.toDigitsCore] using h
  | succ f ih =>
      intro n ds h
      have hd : ∀ ch ∈ (Nat.digitChar (n % 10) :: ds), ch.isDigit = true := by
        intro ch hch
        rcases List.mem_cons.mp hch with rfl | hch
        · exact digitChar_isDigit _ (Nat.mod_lt _ (by norm_num))
        · exact h ch hch
      by_cases hz : n / 10 = 0
      · simp only [Nat.toDigitsCore, hz, if_true]
        exact hd
      · simp only [Nat.toDigitsCore, hz, if_false]
        exact ih (n / 10) (Nat.digitChar (n % 10) :: ds) hd

theorem repr_all_digits (n : Nat) : ∀ ch ∈ (Nat.repr n).data, ch.isDigit = true := by
  have hdata : (Nat.repr n).data = Nat.toDigitsCore 10 (n + 1) n [] := rfl
  rw [hdata]
  exact toDigitsCore_all_digits (n + 1) n [] (by intro ch hch; cases hch)

theorem digits_mid_split : ∀ (d1 d2 s1 s2 : List Char),
    (∀ ch ∈ d1, ch.isDigit = true) → (∀ ch ∈ d2, ch.isDigit = true) →
    d1 ++ '_' :: 'p' :: 'o' :: '_' :: s1 = d2 ++ '_' :: 'p' :: 'o' :: '_' :: s2 →
    d1 = d2 ∧ s1 = s2 := by
  intro d1
  induction d1 with
  | nil =>
      intro d2 s1 s2 _ h2 heq
      cases d2 with
      | nil =>
          refine ⟨rfl, ?_⟩
          simpa using heq
      | cons c2 d2' =>
          exfalso
          injection heq with hc _
          have hdig := h2 c2 (List.mem_cons_self c2 d2')
          rw [← hc] at hdig
          exact absurd hdig (by decide)
  | cons c1 d1' ih =>
      intro d2 s1 s2 h1 h2 heq
      cases d2 with
      | nil =>
          exfalso
          injection heq with hc _
          have hdig := h1 c1 (List.mem_cons_self c1 d1')
          rw [hc] at hdig
          exact absurd hdig (by decide)
      | cons c2 d2' =>
          injection heq with hc htl
          subst hc
          obtain ⟨hd, hs⟩ := ih d2' s1 s2
            (fun ch hm => h1 ch (List.mem_cons_of_mem _ hm))
            (fun ch hm => h2 ch (List.mem_cons_of_mem _ hm)) htl
          exact ⟨by rw [hd], hs⟩

theorem txid_ne_of_id_ne (id1 id2 : String) (k1 k2 : Nat) (h : id1 ≠ id2) :
    id1 ++ "_op_" ++ Nat.repr k1 ≠ id2 ++ "_op_" ++ Nat.repr k2 := by
  intro heq
  apply h
  have hdata := congrArg String.data heq
  rw [String.data_append, String.data_append, String.data_append,
    String.data_append] at hdata
  have hrev := congrArg List.reverse hdata
  rw [List.reverse_append, List.reverse_append, List.reverse_append,
    List.reverse_append] at hrev
  have hmid : ("_op_" : String).data.reverse = ['_', 'p', 'o', '_'] := by decide
  rw [hmid] at hrev
  have hform1 : (Nat.repr k1).data.reverse ++
      (['_', 'p', 'o', '_'] ++ id1.data.reverse) =
      (Nat.repr k1).data.reverse ++
        '_' :: 'p' :: 'o' :: '_' :: id1.data.reverse := rfl
  have hform2 : (Nat.repr k2).data.reverse ++
      (['_', 'p', 'o', '_'] ++ id2.data.reverse) =
      (Nat.repr k2).data.reverse ++
        '_' :: 'p' :: 'o' :: '_' :: id2.data.reverse := rfl
  rw [hform1, hform2] at hrev
  obtain ⟨_, hs⟩ := digits_mid_split
    ((Nat.repr k1).data.reverse) ((Nat.repr k2).data.reverse)
    (id1.data.reverse) (id2.data.reverse)
    (fun ch hm => repr_all_digits k1 ch (List.mem_reverse.mp hm))
    (fun ch hm => repr_all_digits k2 ch (List.mem_reverse.mp hm)) hrev
  apply String.ext
  have := congrArg List.reverse hs
  simpa using this

theorem client_after_num (id : String) : ∀ k, k < 2 ^ 32 →
    (client_after (Client.new id) k).num_requests = k ∧
      (client_after (Client.new id) k).id_str = id := by
  intro k
  induction k with
  | zero => exact fun _ => ⟨rfl, rfl⟩
  | succ k ih =>
      intro h
      have ihk := ih (by omega)
      constructor
      · show inc32 (client_after (Client.new id) k).num_requests = k + 1
        rw [ihk.1]
        unfold inc32
        rw [two_pow_32_eq] at *
        omega
      · show (client_after (Client.new id) k).id_str = id
        exact ihk.2

theorem nth_request_eq (id : String) (k : Nat) (h1 : 1 ≤ k) (h2 : k < 2 ^ 32) :
    nth_request id k = ProtocolMessage.generate MessageType.ClientRequest
      (id ++ "_op_" ++ Nat.repr k) id k := by
  have hprev := client_after_num id (k - 1) (by omega)
  have hk : inc32 (client_after (Client.new id) (k - 1)).num_requests = k := by
    rw [hprev.1]
    unfold inc32
    rw [two_pow_32_eq] at *
    omega
  show ProtocolMessage.generate MessageType.ClientRequest
      ((client_after (Client.new id) (k - 1)).id_str ++ "_op_" ++
        Nat.repr (inc32 (client_after (Client.new id) (k - 1)).num_requests))
      ((client_after (Client.new id) (k - 1)).id_str)
      (inc32 (client_after (Client.new id) (k - 1)).num_requests) = _
  rw [hk, hprev.2]

/-- C8: the k-th call of send_next_operation on a client with identifier id
builds a ClientRequest with txid "<id>_op_<k>" and opid k; distinct calls of
one client carry distinct op numbers, and clients with distinct identifiers
never produce the same txid. -/
theorem client_txid_unique (id : String) (k : Nat) (h1 : 1 ≤ k)
    (h2 : k < 2 ^ 32) :
    nth_request id k = ProtocolMessage.generate MessageType.ClientRequest
        (id ++ "_op_" ++ Nat.repr k) id k ∧
      (∀ j, 1 ≤ j → j < 2 ^ 32 → j ≠ k →
        (nth_request id j).opid ≠ (nth_request id k).opid) ∧
      (∀ id2 k2, 1 ≤ k2 → k2 < 2 ^ 32 → id ≠ id2 →
        (nth_request id k).txid ≠ (nth_request id2 k2).txid) := by
  refine ⟨nth_request_eq id k h1 h2, ?_, ?_⟩
  · intro j hj1 hj2 hne
    rw [nth_request_eq id j hj1 hj2, nth_request_eq id k h1 h2]
    simpa [ProtocolMessage.generate] using hne
  · intro id2 k2 hk21 hk22 hne
    rw [nth_request_eq id k h1 h2, nth_request_eq id2 k2 hk21 hk22]
    show id ++ "_op_" ++ Nat.repr k ≠ id2 ++ "_op_" ++ Nat.repr k2
    exact txid_ne_of_id_ne id id2 k k2 hne

theorem client_txid_unique_witness :
    nth_request "client_0" 1 = ProtocolMessage.generate MessageType.ClientRequest
        ("client_0" ++ "_op_" ++ Nat.repr 1) "client_0" 1 ∧
      (∀ j, 1 ≤ j → j < 2 ^ 32 → j ≠ 1 →
        (nth_request "client_0" j).opid ≠ (nth_request "client_0" 1).opid) ∧
      (∀ id2 k2, 1 ≤ k2 → k2 < 2 ^ 32 → "client_0" ≠ id2 →
        (nth_request "client_0" 1).txid ≠ (nth_request id2 k2).txid) :=
  client_txid_unique "client_0" 1 (by norm_num) (by norm_num)

end TwoPC
